import Mathlib

/-!
Verification of the disease fact resolution and reasoning layer of the
wheat disease detection system (files `app/rdf_knowledge.py`,
`app/reasoner.py`, `app/config.py`).

The RDF graph is modelled as a list of triples of strings; the list order
models the iteration order of the backing triple store.  All string
operations (`lower`, `strip`, substring containment, `split("(")[0]`)
are modelled on Lean strings.  Confidence scores are modelled as
rationals; every concrete threshold of the source compares identically
on rationals and on the source's binary floats at the values the
claims mention.  Explanation-trace lines, which the source renders as
formatted strings, are modelled structurally as an inductive type that
records exactly the data interpolated into each message.
-/

/-- One RDF triple, as iterated by `graph.triples`. -/
structure Triple where
  subj : String
  pred : String
  obj  : String
deriving DecidableEq, Repr

/-- The knowledge graph: a list of triples in iteration order. -/
abbrev KB := List Triple

def rdfType : String := "rdf:type"

def rdfsLabel : String := "rdfs:label"

def wheatDisease : String := "wheat:Disease"

def causedBy : String := "wheat:causedBy"

def hasSymptom : String := "wheat:hasSymptom"

def hasTreatment : String := "wheat:hasTreatment"

def developsUnder : String := "wheat:developsUnder"

def affectsPlantPart : String := "wheat:affectsPlantPart"

def affectsHost : String := "wheat:affectsHost"

def hasNote : String := "wheat:hasNote"

/-- Python `s.lower()`, character-wise. -/
def lowerS (s : String) : String := ⟨s.data.map Char.toLower⟩

/-- Strip leading and trailing whitespace from a character list. -/
def trimList (l : List Char) : List Char :=
  ((l.dropWhile Char.isWhitespace).reverse.dropWhile Char.isWhitespace).reverse

/-- Python `s.strip()`. -/
def trimS (s : String) : String := ⟨trimList s.data⟩

/-- Python `s.lower().strip()`. -/
def nrm (s : String) : String := trimS (lowerS s)

/-- Python `a in b` on strings: `a` occurs contiguously inside `b`. -/
def strIn (a b : String) : Bool := decide (a.data <:+: b.data)

/-- Python `s.split("(")[0].strip()`: the part before the first
parenthesis, trimmed. -/
def baseOf (s : String) : String := trimS ⟨s.data.takeWhile (fun c => c ≠ '(')⟩

/-- The pairs `(subject, label)` of all `rdfs:label` triples of the
graph, in iteration order: models `graph.triples((None, RDFS.label, None))`. -/
def labelTriples (g : KB) : List (String × String) :=
  g.filterMap (fun t => if t.pred = rdfsLabel then some (t.subj, t.obj) else none)

/-- `is_disease(uri)` of `get_disease_uri_by_label`:
`(uri, RDF.type, WHEAT.Disease) in self.graph`. -/
def isDisease (g : KB) (uri : String) : Bool :=
  decide ((⟨uri, rdfType, wheatDisease⟩ : Triple) ∈ g)

/-- Stage 1 of `get_disease_uri_by_label`: first label triple whose
label matches exactly (case-insensitive, trimmed) and whose subject is
a Disease.  Non-Disease exact hits are skipped, not returned. -/
def exactMatch (g : KB) (ql : String) : Option String :=
  (labelTriples g).findSome? (fun p =>
    if nrm p.2 = ql ∧ isDisease g p.1 then some p.1 else none)

/-- Stage 2 of `get_disease_uri_by_label`: base-name match.  Runs only
when the input's base form is non-empty and differs from the raw
(normalised) input; compares base form to base form over Disease-typed
subjects, first match wins. -/
def baseMatch (g : KB) (ql : String) : Option String :=
  let qb := baseOf ql
  if qb ≠ "" ∧ qb ≠ ql then
    (labelTriples g).findSome? (fun p =>
      if isDisease g p.1 ∧ baseOf (nrm p.2) = qb then some p.1 else none)
  else none

/-- The score the source assigns to a partial-match hit
(`get_disease_uri_by_label`, lines 103-107): the length of the
contained (shorter) string — `len(label_lower)` when the query lies
inside the disease label, else `len(disease_label)`. -/
def scoreContained (ql dl : String) : Nat :=
  if strIn ql dl then ql.length else dl.length

/-- Modelled from the spec's words (claim C1 as stated): the score of a
hit is the length of the string that CONTAINS the other — the label's
length when the query lies inside the label, else the query's length. -/
def scoreClaimed (ql dl : String) : Nat :=
  if strIn ql dl then dl.length else ql.length

/-- Stage 3 of `get_disease_uri_by_label`, the partial-match loop with
its running `best_match` / `best_score` state.  An exact equality found
here returns immediately; otherwise the hit is scored by
`scoreContained` and a strictly greater score replaces the running best
(ties keep the first). -/
def substringLoop (g : KB) (ql : String) :
    List (String × String) → Option String → Nat → Option String
  | [], best, _ => best
  | p :: rest, best, bestSc =>
    if isDisease g p.1 then
      if strIn ql (nrm p.2) || strIn (nrm p.2) ql then
        if nrm p.2 = ql then some p.1
        else
          if scoreContained ql (nrm p.2) > bestSc then
            substringLoop g ql rest (some p.1) (scoreContained ql (nrm p.2))
          else substringLoop g ql rest best bestSc
      else substringLoop g ql rest best bestSc
    else substringLoop g ql rest best bestSc

/-- Stage 4 of `get_disease_uri_by_label`: exact match with the type
check dropped, used only when all typed stages produced nothing. -/
def untypedExact (g : KB) (ql : String) : Option String :=
  (labelTriples g).findSome? (fun p =>
    if nrm p.2 = ql then some p.1 else none)

/-- `WheatKnowledgeBase.get_disease_uri_by_label`: the four matching
stages in order, first success wins. -/
def get_disease_uri_by_label (g : KB) (label : String) : Option String :=
  let ql := nrm label
  match exactMatch g ql with
  | some s => some s
  | none =>
    match baseMatch g ql with
    | some s => some s
    | none =>
      match substringLoop g ql (labelTriples g) none 0 with
      | some s => some s
      | none => untypedExact g ql

/-- The labels of one subject, in iteration order: models
`[str(o) for _, _, o in graph.triples((uri, RDFS.label, None))]`. -/
def labelsOf (g : KB) (uri : String) : List String :=
  (labelTriples g).filterMap (fun p => if p.1 = uri then some p.2 else none)

/-- `graph.value(uri, RDFS.label)`: the first label of a subject, if any. -/
def firstLabel (g : KB) (uri : String) : Option String :=
  (labelsOf g uri).head?

/-- The objects of `graph.triples((uri, pred, None))`, in iteration order. -/
def objsOf (g : KB) (uri : String) (pred : String) : List String :=
  g.filterMap (fun t => if t.subj = uri ∧ t.pred = pred then some t.obj else none)

/-- The pathogen loop of `get_disease_facts`: each `causedBy` object with
a non-empty label overwrites the previous value, so the last one wins. -/
def pathogenOf (g : KB) (uri : String) : Option String :=
  (objsOf g uri causedBy).foldl
    (fun acc u =>
      match firstLabel g u with
      | some lab => if lab ≠ "" then some lab else acc
      | none => acc)
    none

/-- The symptom/treatment/condition/part/host loops of
`get_disease_facts`: for each object of the relation, append its first
label when that label exists and is non-empty (`if lab:`). -/
def labeledObjs (g : KB) (uri : String) (pred : String) : List String :=
  (objsOf g uri pred).filterMap (fun u =>
    match firstLabel g u with
    | some lab => if lab ≠ "" then some lab else none
    | none => none)

/-- Python `uri.split("#")[-1]` on character lists: the segment after
the last `#`, or the whole string when there is none. -/
def fragAux : List Char → List Char → List Char
  | [], acc => acc.reverse
  | c :: rest, acc => if c = '#' then fragAux rest [] else fragAux rest (c :: acc)

/-- `uri.split("#")[-1].replace("_", " ")` of `get_disease_facts`. -/
def fragmentName (uri : String) : String :=
  ⟨(fragAux uri.data []).map (fun c => if c = '_' then ' ' else c)⟩

/-- The display-label selection of `get_disease_facts` (its last block):
with a non-empty query, a stored label equal to the query up to case and
trim is preferred (first such, original casing); otherwise — and for an
empty query, whose Python truthiness skips the matching loop — the first
label without a parenthesis, then the first label; with no labels at
all, the URI fragment with underscores replaced by spaces. -/
def selectLabel (query : String) (all_labels : List String) (uri : String) : String :=
  match all_labels with
  | [] => fragmentName uri
  | l0 :: _ =>
    if query ≠ "" then
      match all_labels.find? (fun l => decide (nrm l = nrm query)) with
      | some l => l
      | none =>
        match all_labels.find? (fun l => ! (l.data.contains '(')) with
        | some l => l
        | none => l0
    else
      match all_labels.find? (fun l => ! (l.data.contains '(')) with
      | some l => l
      | none => l0

/-- The record assembled by `get_disease_facts`. -/
structure DiseaseFacts where
  uri : String
  label : String
  pathogen : Option String
  symptoms : List String
  treatments : List String
  conditions : List String
  plant_parts : List String
  hosts : List String
  notes : List String
deriving DecidableEq, Repr

/-- `WheatKnowledgeBase.get_disease_facts`. -/
def get_disease_facts (g : KB) (disease_label : String) : Option DiseaseFacts :=
  match get_disease_uri_by_label g disease_label with
  | none => none
  | some uri =>
    some {
      uri := uri
      label := selectLabel disease_label (labelsOf g uri) uri
      pathogen := pathogenOf g uri
      symptoms := labeledObjs g uri hasSymptom
      treatments := labeledObjs g uri hasTreatment
      conditions := labeledObjs g uri developsUnder
      plant_parts := labeledObjs g uri affectsPlantPart
      hosts := labeledObjs g uri affectsHost
      notes := objsOf g uri hasNote
    }

/-- The fixed-key dictionary produced by `WheatKnowledgeBase.to_dict`
for a present `DiseaseFacts`. -/
structure FactsDict where
  disease_uri : String
  disease_name : String
  pathogen : Option String
  symptoms : List String
  treatments : List String
  conditions : List String
  plant_parts : List String
  hosts : List String
  notes : List String
deriving DecidableEq, Repr

/-- `WheatKnowledgeBase.to_dict`: `none` models the empty dictionary
`{}` returned for an absent `DiseaseFacts`. -/
def WheatKnowledgeBase.to_dict : Option DiseaseFacts → Option FactsDict
  | none => none
  | some f =>
    some ⟨f.uri, f.label, f.pathogen, f.symptoms, f.treatments,
      f.conditions, f.plant_parts, f.hosts, f.notes⟩

/-- The subjects of `graph.triples((None, RDF.type, WHEAT.Disease))`,
in iteration order, possibly with repeats. -/
def diseaseSubjects (g : KB) : List String :=
  g.filterMap (fun t => if t.pred = rdfType ∧ t.obj = wheatDisease then some t.subj else none)

/-- The per-entity label choice of `get_all_disease_labels`: nothing
when the entity has no label; otherwise the first label without a
parenthesis when one exists, else the first label. -/
def entityPreferredLabel (g : KB) (s : String) : Option String :=
  match labelsOf g s with
  | [] => none
  | l0 :: rest =>
    match (l0 :: rest).find? (fun l => ! (l.data.contains '(')) with
    | some l => some l
    | none => some l0

/-- The accumulation loop of `get_all_disease_labels`, with its
`seen_uris` guard: each subject is processed once, first occurrence. -/
def collectPreferred (g : KB) : List String → List String → List String
  | [], _ => []
  | s :: rest, seen =>
    if s ∈ seen then collectPreferred g rest seen
    else
      match entityPreferredLabel g s with
      | some l => l :: collectPreferred g rest (s :: seen)
      | none => collectPreferred g rest (s :: seen)

/-- Lexicographic comparison of character lists by code point: the
order Python's `sorted` uses on strings. -/
def charsLe : List Char → List Char → Bool
  | [], _ => true
  | _ :: _, [] => false
  | a :: as, b :: bs =>
    if a.toNat < b.toNat then true
    else if b.toNat < a.toNat then false
    else charsLe as bs

/-- Python's `s1 <= s2` on strings, by code point. -/
def strLeB (a b : String) : Bool := charsLe a.data b.data

instance strLeBDecidableRel : DecidableRel (fun a b : String => strLeB a b = true) :=
  fun _ _ => inferInstance

/-- `WheatKnowledgeBase.get_all_disease_labels`:
`sorted(set(labels))` is modelled as deduplication followed by sorting
under the lexicographic order on strings. -/
def get_all_disease_labels (g : KB) : List String :=
  List.insertionSort (fun a b => strLeB a b = true)
    (collectPreferred g (diseaseSubjects g) []).dedup

/-- One line of the reasoner's explanation trace, modelled structurally:
each constructor records exactly the data the source interpolates into
the corresponding f-string of `WheatReasoner.reason`. -/
inductive TraceLine where
  | symptomsMatched (text_symptoms matched : List String) (disease_label : String)
  | symptomsNotMatched (text_symptoms : List String) (disease_label : String)
  | lowConfidence (confidence threshold : ℚ)
deriving DecidableEq, Repr

/-- `config.LOW_CONFIDENCE_THRESHOLD`, a constant distinct from the
literal `0.7` used for the High risk tier. -/
def LOW_CONFIDENCE_THRESHOLD : ℚ := 7/10

/-- The inner loop test of the symptom cross-check:
`ts.lower() in sym.lower() or sym.lower() in ts.lower()` for some
supplied text symptom `ts`. -/
def symMatches (text_symptoms : List String) (sym : String) : Bool :=
  text_symptoms.any (fun t => strIn (lowerS t) (lowerS sym) || strIn (lowerS sym) (lowerS t))

/-- The `symptom_evidence` computed by `WheatReasoner.reason`: empty
unless both facts and text symptoms are present, else the entity
symptoms (in order) matching some text symptom. -/
def crossEvidence (facts_obj : Option DiseaseFacts) (text_symptoms : List String) : List String :=
  match facts_obj, text_symptoms with
  | some f, _ :: _ => f.symptoms.filter (symMatches text_symptoms)
  | _, _ => []

/-- The cross-check portion of the explanation trace of
`WheatReasoner.reason`: one positive or one negative line when both
facts and text symptoms are present, nothing otherwise. -/
def crossTrace (facts_obj : Option DiseaseFacts) (text_symptoms : List String)
    (disease_label : String) : List TraceLine :=
  match facts_obj, text_symptoms with
  | some f, t :: ts =>
    let matched := f.symptoms.filter (symMatches (t :: ts))
    if matched = [] then [TraceLine.symptomsNotMatched (t :: ts) disease_label]
    else [TraceLine.symptomsMatched (t :: ts) matched disease_label]
  | _, _ => []

/-- `reasoner.ReasoningResult`.  `facts = none` models the empty
dictionary produced for an unresolved label. -/
structure ReasoningResult where
  disease_label : String
  clip_confidence : ℚ
  risk_level : String
  is_low_confidence : Bool
  facts : Option FactsDict
  symptom_evidence : List String
  explanation_trace : List TraceLine
deriving DecidableEq, Repr

/-- `WheatReasoner.reason`.  A `text_symptoms` of `[]` models both the
`None` default and an empty list, which the source treats identically
(`if text_symptoms and facts_obj is not None`). -/
def WheatReasoner.reason (g : KB) (disease_label : String) (clip_confidence : ℚ)
    (text_symptoms : List String) : ReasoningResult :=
  let facts_obj := get_disease_facts g disease_label
  { disease_label := disease_label
    clip_confidence := clip_confidence
    risk_level :=
      if clip_confidence ≥ 7/10 then "High"
      else if clip_confidence ≥ 4/10 then "Medium"
      else "Low"
    is_low_confidence := decide (clip_confidence < LOW_CONFIDENCE_THRESHOLD)
    facts := WheatKnowledgeBase.to_dict facts_obj
    symptom_evidence := crossEvidence facts_obj text_symptoms
    explanation_trace :=
      crossTrace facts_obj text_symptoms disease_label ++
        (if clip_confidence < LOW_CONFIDENCE_THRESHOLD then
          [TraceLine.lowConfidence clip_confidence LOW_CONFIDENCE_THRESHOLD]
        else []) }

/-- Whether a trace line belongs to the symptom cross-check. -/
def isCrossLine : TraceLine → Bool
  | TraceLine.symptomsMatched _ _ _ => true
  | TraceLine.symptomsNotMatched _ _ => true
  | TraceLine.lowConfidence _ _ => false

/-- A primitive value of the flattened mapping produced by `asdict`. -/
inductive Prim where
  | s (v : String)
  | q (v : ℚ)
  | b (v : Bool)
  | ls (v : List String)
  | pmap (v : List (String × Prim))
  | tr (v : List TraceLine)

/-- The nested `facts` mapping inside `asdict(result)`: the empty
mapping for an unresolved label, else the nine fixed keys of
`WheatKnowledgeBase.to_dict`.  The optional pathogen is encoded as a
sub-list that is empty for `None`. -/
def factsPrim : Option FactsDict → Prim
  | none => Prim.pmap []
  | some f =>
    Prim.pmap [
      (("disease_uri"), Prim.s f.disease_uri),
      (("disease_name"), Prim.s f.disease_name),
      (("pathogen"), Prim.ls f.pathogen.toList),
      (("symptoms"), Prim.ls f.symptoms),
      (("treatments"), Prim.ls f.treatments),
      (("conditions"), Prim.ls f.conditions),
      (("plant_parts"), Prim.ls f.plant_parts),
      (("hosts"), Prim.ls f.hosts),
      (("notes"), Prim.ls f.notes)]

/-- `WheatReasoner.to_dict`: `asdict` flattens the dataclass to its
seven keys in field order. -/
def WheatReasoner.to_dict (r : ReasoningResult) : List (String × Prim) :=
  [(("disease_label"), Prim.s r.disease_label),
   (("clip_confidence"), Prim.q r.clip_confidence),
   (("risk_level"), Prim.s r.risk_level),
   (("is_low_confidence"), Prim.b r.is_low_confidence),
   (("facts"), factsPrim r.facts),
   (("symptom_evidence"), Prim.ls r.symptom_evidence),
   (("explanation_trace"), Prim.tr r.explanation_trace)]

/-- Modelled from the spec: the repository has no explicit inverse of
`asdict`; the spec's round-trip property ("flattening it to a primitive
mapping and back preserves every field exactly") presumes the evident
reconstruction `ReasoningResult(**d)` from the flattened mapping, which
this function models: it requires exactly the seven keys in order and
parses the nested facts mapping back. -/
def factsOfPrim : Prim → Option (Option FactsDict)
  | Prim.pmap [] => some none
  | Prim.pmap [(k1, Prim.s u), (k2, Prim.s n), (k3, Prim.ls p),
      (k4, Prim.ls sy), (k5, Prim.ls tr), (k6, Prim.ls co),
      (k7, Prim.ls pp), (k8, Prim.ls ho), (k9, Prim.ls no)] =>
    if k1 = "disease_uri" ∧ k2 = "disease_name" ∧ k3 = "pathogen" ∧
        k4 = "symptoms" ∧ k5 = "treatments" ∧ k6 = "conditions" ∧
        k7 = "plant_parts" ∧ k8 = "hosts" ∧ k9 = "notes" then
      some (some ⟨u, n, p.head?, sy, tr, co, pp, ho, no⟩)
    else none
  | _ => none

/-- Modelled from the spec: reconstruction of a `ReasoningResult` from
the flattened mapping (see `factsOfPrim`). -/
def reasoningResultOfDict : List (String × Prim) → Option ReasoningResult
  | [(k1, Prim.s dl), (k2, Prim.q c), (k3, Prim.s rl), (k4, Prim.b lo),
     (k5, f), (k6, Prim.ls ev), (k7, Prim.tr tr)] =>
    if k1 = "disease_label" ∧ k2 = "clip_confidence" ∧ k3 = "risk_level" ∧
        k4 = "is_low_confidence" ∧ k5 = "facts" ∧
        k6 = "symptom_evidence" ∧ k7 = "explanation_trace" then
      match factsOfPrim f with
      | some fd => some ⟨dl, c, rl, lo, fd, ev, tr⟩
      | none => none
    else none
  | _ => none

/-- The hit filter of the partial-match stage: Disease-typed and one
string contains the other (case-insensitive). -/
def candFilter (g : KB) (ql : String) (p : String × String) : Bool :=
  isDisease g p.1 && (strIn ql (nrm p.2) || strIn (nrm p.2) ql)

/-- Highest score wins, strict improvement only, so ties keep the first
encountered; candidates are taken in list order. -/
def pickBest : List (String × Nat) → Option String → Nat → Option String
  | [], best, _ => best
  | (s, sc) :: rest, best, bestSc =>
    if sc > bestSc then pickBest rest (some s) sc
    else pickBest rest best bestSc

/-- Spec-level reading of the partial-match stage, resumed from a
running best: first exact equality among the hits short-circuits,
otherwise the highest-scoring hit (ties keeping the first) wins, with
the given score function. -/
def specResume (score : String → String → Nat) (g : KB) (ql : String)
    (ts : List (String × String)) (best : Option String) (bsc : Nat) : Option String :=
  match (ts.filter (candFilter g ql)).find? (fun p => decide (nrm p.2 = ql)) with
  | some p => some p.1
  | none =>
    pickBest ((ts.filter (candFilter g ql)).map (fun p => (p.1, score ql (nrm p.2)))) best bsc

/-- The partial-match stage as the spec describes it, with the claimed
(containing-length) scoring rule. -/
def substringStageClaimed (g : KB) (ql : String) : Option String :=
  specResume scoreClaimed g ql (labelTriples g) none 0

/-- The partial-match stage as the spec describes it, with the amended
(contained-length) scoring rule. -/
def substringStageAmended (g : KB) (ql : String) : Option String :=
  specResume scoreContained g ql (labelTriples g) none 0

/-- Modelled from the claim's words (C10 as stated): the query-match
preference applies to every query, with no non-emptiness guard. -/
def selectLabelClaimed (query : String) (all_labels : List String) (uri : String) : String :=
  match all_labels with
  | [] => fragmentName uri
  | l0 :: _ =>
    match all_labels.find? (fun l => decide (nrm l = nrm query)) with
    | some l => l
    | none =>
      match all_labels.find? (fun l => ! (l.data.contains '(')) with
      | some l => l
      | none => l0

/-- The amended C10 selection policy: the query-match preference only
applies to a non-empty query (the source guards it with Python
truthiness of the query string); otherwise the first label without a
parenthesis, then the first label, then the URI fragment when there are
no labels at all. -/
def selectLabelAmended (query : String) (all_labels : List String) (uri : String) : String :=
  match (if query = "" then none
         else all_labels.find? (fun l => decide (nrm l = nrm query))) with
  | some l => l
  | none =>
    match all_labels.find? (fun l => ! (l.data.contains '(')), all_labels with
    | some l, _ => l
    | none, l0 :: _ => l0
    | none, [] => fragmentName uri

/-- A small concrete knowledge base shaped like the repository's RDF
file, used to instantiate the theorems. -/
def kbMain : KB := [
  ⟨"wheat#Leaf_Rust", rdfType, wheatDisease⟩,
  ⟨"wheat#Leaf_Rust", rdfsLabel, "Leaf Rust"⟩,
  ⟨"wheat#Leaf_Rust", rdfsLabel, "Leaf Rust (Brown Rust)"⟩,
  ⟨"wheat#Leaf_Rust", causedBy, "wheat#Puccinia"⟩,
  ⟨"wheat#Puccinia", rdfsLabel, "Puccinia triticina"⟩,
  ⟨"wheat#Leaf_Rust", hasSymptom, "wheat#Sym1"⟩,
  ⟨"wheat#Sym1", rdfsLabel, "orange pustules on leaves"⟩,
  ⟨"wheat#Stripe_Rust", rdfType, wheatDisease⟩,
  ⟨"wheat#Stripe_Rust", rdfsLabel, "Stripe Rust (Yellow Rust)"⟩]

/-- The `DiseaseFacts` record that `get_disease_facts` assembles for
the query `"Leaf Rust"` over `kbMain`. -/
def lfFacts : DiseaseFacts :=
  { uri := "wheat#Leaf_Rust"
    label := "Leaf Rust"
    pathogen := some ("Puccinia triticina")
    symptoms := [("orange pustules on leaves")]
    treatments := []
    conditions := []
    plant_parts := []
    hosts := []
    notes := [] }

/-- Counterexample graph for C1: two Disease entities whose labels both
contain the query `"leaf rust"`. -/
def kbC1 : KB := [
  ⟨"E1", rdfType, wheatDisease⟩,
  ⟨"E1", rdfsLabel, "X leaf rust"⟩,
  ⟨"E2", rdfType, wheatDisease⟩,
  ⟨"E2", rdfsLabel, "X leaf rust Y"⟩]

/-- Graph for C2: `"Stripe Rust"` and `"Stripe Rust (Yellow Rust)"` as
labels of two distinct Disease entities, plain-label entity first. -/
def kb2 : KB := [
  ⟨"E1", rdfType, wheatDisease⟩,
  ⟨"E1", rdfsLabel, "Stripe Rust"⟩,
  ⟨"E2", rdfType, wheatDisease⟩,
  ⟨"E2", rdfsLabel, "Stripe Rust (Yellow Rust)"⟩]

/-- As `kb2` with the two entities in the opposite iteration order. -/
def kb2r : KB := [
  ⟨"E2", rdfType, wheatDisease⟩,
  ⟨"E2", rdfsLabel, "Stripe Rust (Yellow Rust)"⟩,
  ⟨"E1", rdfType, wheatDisease⟩,
  ⟨"E1", rdfsLabel, "Stripe Rust"⟩]

/-- Counterexample graph for C7: two Disease entities whose full labels
are distinct strings but coincide up to letter case. -/
def kb7 : KB := [
  ⟨"EB", rdfType, wheatDisease⟩,
  ⟨"EB", rdfsLabel, "LEAF RUST"⟩,
  ⟨"EA", rdfType, wheatDisease⟩,
  ⟨"EA", rdfsLabel, "Leaf Rust"⟩]

/-- Counterexample graph for C10: a Disease entity with an ordinary
label and a whitespace-only label, reachable by the empty query. -/
def kb10 : KB := [
  ⟨"E", rdfType, wheatDisease⟩,
  ⟨"E", rdfsLabel, "x"⟩,
  ⟨"E", rdfsLabel, " "⟩]

theorem specResume_cons_skip (score : String → String → Nat) (g : KB) (ql : String)
    (p : String × String) (ts : List (String × String)) (best : Option String) (bsc : Nat)
    (h : candFilter g ql p = false) :
    specResume score g ql (p :: ts) best bsc = specResume score g ql ts best bsc := by
  simp [specResume, List.filter_cons, h]

theorem specResume_cons_exact (score : String → String → Nat) (g : KB) (ql : String)
    (p : String × String) (ts : List (String × String)) (best : Option String) (bsc : Nat)
    (h : candFilter g ql p = true) (he : nrm p.2 = ql) :
    specResume score g ql (p :: ts) best bsc = some p.1 := by
  unfold specResume
  rw [List.filter_cons, if_pos h, List.find?_cons_of_pos _ (by simp [he])]

theorem specResume_cons_hit (score : String → String → Nat) (g : KB) (ql : String)
    (p : String × String) (ts : List (String × String)) (best : Option String) (bsc : Nat)
    (h : candFilter g ql p = true) (he : ¬ nrm p.2 = ql) :
    specResume score g ql (p :: ts) best bsc =
      if score ql (nrm p.2) > bsc then
        specResume score g ql ts (some p.1) (score ql (nrm p.2))
      else specResume score g ql ts best bsc := by
  unfold specResume
  rw [List.filter_cons, if_pos h, List.find?_cons_of_neg _ (by simp [he]), List.map_cons]
  cases hf : List.find? (fun p => decide (nrm p.2 = ql)) (List.filter (candFilter g ql) ts) with
  | some q => simp [hf]
  | none => simp [hf, pickBest]

theorem substringLoop_eq_specResume (g : KB) (ql : String) :
    ∀ (ts : List (String × String)) (best : Option String) (bsc : Nat),
    substringLoop g ql ts best bsc = specResume scoreContained g ql ts best bsc := by
  intro ts
  induction ts with
  | nil => intro best bsc; simp [substringLoop, specResume, pickBest]
  | cons p rest ih =>
    intro best bsc
    by_cases hd : isDisease g p.1 = true
    · by_cases hc2 : (strIn ql (nrm p.2) || strIn (nrm p.2) ql) = true
      · have hct : candFilter g ql p = true := by simp [candFilter, hd, hc2]
        by_cases he : nrm p.2 = ql
        · rw [specResume_cons_exact _ _ _ _ _ _ _ hct he]
          simp only [substringLoop]
          rw [if_pos hd, if_pos hc2, if_pos he]
        · rw [specResume_cons_hit _ _ _ _ _ _ _ hct he]
          simp only [substringLoop]
          rw [if_pos hd, if_pos hc2, if_neg he]
          by_cases hs : scoreContained ql (nrm p.2) > bsc
          · rw [if_pos hs, if_pos hs, ih]
          · rw [if_neg hs, if_neg hs, ih]
      · have hc2f : (strIn ql (nrm p.2) || strIn (nrm p.2) ql) = false := by
          revert hc2; cases (strIn ql (nrm p.2) || strIn (nrm p.2) ql) <;> simp
        rw [specResume_cons_skip _ _ _ _ _ _ _ (by simp [candFilter, hc2f])]
        simp only [substringLoop]
        rw [if_pos hd, if_neg hc2]
        exact ih best bsc
    · have hdf : isDisease g p.1 = false := by
        revert hd; cases isDisease g p.1 <;> simp
      rw [specResume_cons_skip _ _ _ _ _ _ _ (by simp [candFilter, hdf])]
      simp only [substringLoop]
      rw [if_neg hd]
      exact ih best bsc

theorem charsLe_total : ∀ a b : List Char, charsLe a b = true ∨ charsLe b a = true := by
  intro a
  induction a with
  | nil => intro b; left; rfl
  | cons x xs ih =>
    intro b
    cases b with
    | nil => right; rfl
    | cons y ys =>
      by_cases h1 : x.toNat < y.toNat
      · left; simp [charsLe, h1]
      · by_cases h2 : y.toNat < x.toNat
        · right; simp [charsLe, h2]
        · rcases ih ys with h | h
          · left; simp [charsLe, h1, h2, h]
          · right; simp [charsLe, h1, h2, h]

theorem charsLe_trans :
    ∀ a b c : List Char, charsLe a b = true → charsLe b c = true → charsLe a c = true := by
  intro a
  induction a with
  | nil => intro b c _ _; rfl
  | cons x xs ih =>
    intro b c hab hbc
    cases b with
    | nil => simp [charsLe] at hab
    | cons y ys =>
      cases c with
      | nil => simp [charsLe] at hbc
      | cons z zs =>
        by_cases h1 : x.toNat < y.toNat <;> by_cases h2 : y.toNat < x.toNat <;>
          by_cases h3 : y.toNat < z.toNat <;> by_cases h4 : z.toNat < y.toNat <;>
          by_cases h5 : x.toNat < z.toNat <;> by_cases h6 : z.toNat < x.toNat <;>
          simp only [charsLe, h1, h2, h3, h4, h5, h6, if_true, if_false] at hab hbc ⊢ <;>
          first
            | rfl
            | omega
            | (exact ih ys zs hab hbc)
            | (simp at hab)
            | (simp at hbc)

instance strLeBIsTotal : IsTotal String (fun a b => strLeB a b = true) :=
  ⟨fun a b => charsLe_total a.data b.data⟩

instance strLeBIsTrans : IsTrans String (fun a b => strLeB a b = true) :=
  ⟨fun a b c => charsLe_trans a.data b.data c.data⟩

theorem findSome?_first_exact (g : KB) (ql e : String) :
    ∀ (l : List (String × String)),
    (∃ lab, (e, lab) ∈ l ∧ nrm lab = ql) →
    isDisease g e = true →
    (∀ p ∈ l, isDisease g p.1 = true → nrm p.2 = ql → p.1 = e) →
    l.findSome? (fun p => if nrm p.2 = ql ∧ isDisease g p.1 then some p.1 else none)
      = some e := by
  intro l
  induction l with
  | nil => rintro ⟨lab, hmem, _⟩ _ _; cases hmem
  | cons p rest ih =>
    rintro ⟨lab, hmem, hlab⟩ hdis huniq
    by_cases hp : nrm p.2 = ql ∧ isDisease g p.1 = true
    · have : p.1 = e := huniq p (List.mem_cons_self p rest) hp.2 hp.1
      simp [List.findSome?_cons, hp.1, hp.2, this, hdis]
    · have hnone : (if nrm p.2 = ql ∧ isDisease g p.1 then some p.1 else none) = none := by
        rw [if_neg]; intro hcon; exact hp ⟨hcon.1, hcon.2⟩
      have hrest : (e, lab) ∈ rest := by
        rcases List.mem_cons.mp hmem with heq | h
        · exfalso
          apply hp
          subst heq
          exact ⟨hlab, hdis⟩
        · exact h
      rw [List.findSome?_cons, hnone]
      exact ih ⟨lab, hrest, hlab⟩ hdis
        (fun q hq => huniq q (List.mem_cons_of_mem p hq))

theorem lowConf_not_crossTrace (fo : Option DiseaseFacts) (ts : List String)
    (dl : String) (x y : ℚ) :
    TraceLine.lowConfidence x y ∉ crossTrace fo ts dl := by
  cases fo <;> cases ts <;> simp [crossTrace]
  split <;> simp

theorem collectPreferred_mem (g : KB) :
    ∀ (subs : List String) (seen : List String) (s l : String),
    s ∈ subs → s ∉ seen → entityPreferredLabel g s = some l →
    l ∈ collectPreferred g subs seen := by
  intro subs
  induction subs with
  | nil => intro seen s l h; cases h
  | cons a rest ih =>
    intro seen s l hmem hseen hpref
    by_cases ha : a ∈ seen
    · have hs : s ∈ rest := by
        rcases List.mem_cons.mp hmem with heq | h
        · exact absurd (heq ▸ ha) hseen
        · exact h
      simpa [collectPreferred, ha] using ih seen s l hs hseen hpref
    · by_cases hsa : s = a
      · subst hsa
        simp [collectPreferred, ha, hpref]
      · have hs : s ∈ rest := by
          rcases List.mem_cons.mp hmem with heq | h
          · exact absurd heq hsa
          · exact h
        have hnot : s ∉ a :: seen := by
          intro hcon
          rcases List.mem_cons.mp hcon with heq | h
          · exact hsa heq
          · exact hseen h
        cases hpa : entityPreferredLabel g a with
        | none =>
          simpa [collectPreferred, ha, hpa] using ih (a :: seen) s l hs hnot hpref
        | some la =>
          simp only [collectPreferred, ha, hpa, if_neg]
          exact List.mem_cons_of_mem la (ih (a :: seen) s l hs hnot hpref)

theorem entityPreferredLabel_spec (g : KB) (s l : String)
    (h : entityPreferredLabel g s = some l) :
    l ∈ labelsOf g s ∧
    ((∃ x ∈ labelsOf g s, x.data.contains '(' = false) → l.data.contains '(' = false) ∧
    ((∀ x ∈ labelsOf g s, x.data.contains '(' = true) → (labelsOf g s).head? = some l) := by
  unfold entityPreferredLabel at h
  cases hls : labelsOf g s with
  | nil => rw [hls] at h; cases h
  | cons l0 rest =>
    rw [hls] at h
    cases hf : List.find? (fun l => ! (l.data.contains '(')) (l0 :: rest) with
    | some lf =>
      simp only [hf] at h
      cases h
      have hmemf := List.mem_of_find?_eq_some hf
      have hprop := List.find?_some hf
      refine ⟨hmemf, fun _ => ?_, fun hall => ?_⟩
      · simpa using hprop
      · exfalso
        have hcl := hall _ hmemf
        simp at hcl hprop
        exact hprop hcl
    | none =>
      simp only [hf] at h
      cases h
      refine ⟨List.mem_cons_self _ _, fun hex => ?_, fun _ => rfl⟩
      exfalso
      rcases hex with ⟨x, hx, hxf⟩
      have := List.find?_eq_none.mp hf x hx
      rw [hxf] at this
      exact this rfl

theorem selectLabel_eq_amended (q : String) (ls : List String) (u : String) :
    selectLabel q ls u = selectLabelAmended q ls u := by
  by_cases hq : q = ""
  · subst hq
    cases ls with
    | nil => rfl
    | cons l0 rest =>
      simp only [selectLabel, selectLabelAmended, if_pos rfl]
      rw [if_neg (fun hcon => hcon rfl)]
      cases hp : List.find? (fun l => ! (l.data.contains '(')) (l0 :: rest) <;> simp [hp]
  · cases ls with
    | nil =>
      simp only [selectLabel, selectLabelAmended]
      rw [if_neg hq]
      rfl
    | cons l0 rest =>
      simp only [selectLabel, selectLabelAmended]
      rw [if_pos hq, if_neg hq]
      cases hm : List.find? (fun l => decide (nrm l = nrm q)) (l0 :: rest) with
      | some lm => simp [hm]
      | none =>
        simp only [hm]
        cases hp : List.find? (fun l => ! (l.data.contains '(')) (l0 :: rest) <;> simp [hp]

theorem get_disease_facts_eq (g : KB) (q e : String)
    (h : get_disease_uri_by_label g q = some e) :
    get_disease_facts g q = some {
      uri := e
      label := selectLabel q (labelsOf g e) e
      pathogen := pathogenOf g e
      symptoms := labeledObjs g e hasSymptom
      treatments := labeledObjs g e hasTreatment
      conditions := labeledObjs g e developsUnder
      plant_parts := labeledObjs g e affectsPlantPart
      hosts := labeledObjs g e affectsHost
      notes := objsOf g e hasNote } := by
  unfold get_disease_facts
  rw [h]

/-- C1 (amended): in the best-substring-match stage of the label
resolver, a candidate whose label contains or is contained in the query
(case-insensitively) is scored by the length of the CONTAINED (shorter)
string — the query's length when the query lies inside the label,
otherwise the label's length — not by the length of the containing
string; the highest-scoring candidate across all entities is returned,
ties keeping the first encountered, and an exact equality found at this
stage short-circuits immediately.  Stated as: the source's loop equals
the spec-level description with the contained-length score. -/
theorem C1_substring_scoring (g : KB) (ql : String) :
    substringLoop g ql (labelTriples g) none 0 = substringStageAmended g ql :=
  substringLoop_eq_specResume g ql (labelTriples g) none 0

/-- C1 counterexample: for the query `"leaf rust"` over two Disease
entities labelled `"X leaf rust"` and `"X leaf rust Y"`, the source
scores both hits by the contained query's length 9 (tie, first wins:
E1), while the claimed containing-length scoring (11 versus 13) would
pick E2; so the claim's scoring rule contradicts the code. -/
theorem C1_counterexample :
    substringLoop kbC1 (nrm ("leaf rust")) (labelTriples kbC1) none 0 = some ("E1") ∧
    substringStageClaimed kbC1 (nrm ("leaf rust")) = some ("E2") ∧
    get_disease_uri_by_label kbC1 ("leaf rust") = some ("E1") ∧
    some ("E1") ≠ some ("E2") := by
  refine ⟨by decide, by decide, by decide, by decide⟩

/-- C2 counterexample: with labels `"Stripe Rust"` and
`"Stripe Rust (Yellow Rust)"` on two distinct Disease entities, the
bare query `"stripe rust"` has a base form equal to the raw input, so
the base-name matching step does not run (it returns nothing); the
claim that the query is resolved *via the base-name matching step* is
false — the exact-match step resolves it. -/
theorem C2_counterexample :
    baseOf (nrm ("stripe rust")) = nrm ("stripe rust") ∧
    baseMatch kb2 (nrm ("stripe rust")) = none ∧
    exactMatch kb2 (nrm ("stripe rust")) = some ("E1") ∧
    get_disease_uri_by_label kb2 ("stripe rust") = some ("E1") := by
  refine ⟨by decide, by decide, by decide, by decide⟩

/-- C2 (amended): with labels `"Stripe Rust"` and
`"Stripe Rust (Yellow Rust)"` present on two distinct Disease entities,
resolving the bare query `"stripe rust"` returns the entity whose label
equals `"stripe rust"` exactly (case-insensitively) — via the
exact-match step, the base-name step never running because the bare
input's base form equals the raw input — and not the entity whose label
merely contains `"stripe rust"`; this holds in both iteration orders of
the two entities. -/
theorem C2_base_name_scenario :
    get_disease_uri_by_label kb2 ("stripe rust") = some ("E1") ∧
    exactMatch kb2 (nrm ("stripe rust")) = some ("E1") ∧
    baseMatch kb2 (nrm ("stripe rust")) = none ∧
    get_disease_uri_by_label kb2r ("stripe rust") = some ("E1") ∧
    exactMatch kb2r (nrm ("stripe rust")) = some ("E1") ∧
    baseMatch kb2r (nrm ("stripe rust")) = none := by
  refine ⟨by decide, by decide, by decide, by decide, by decide, by decide⟩

/-- C3: for every knowledge base, label, text-symptom list and
confidence, the reasoner's risk level is High iff confidence ≥ 0.7,
Medium iff 0.4 ≤ confidence < 0.7 and Low iff confidence < 0.4,
independently of symptom evidence and entity data; in particular 0.69
yields Medium, 0.70 High, 0.39 Low and 0.40 Medium. -/
theorem C3_risk_tiers (g : KB) (dl : String) (ts : List String) (c : ℚ) :
    ((WheatReasoner.reason g dl c ts).risk_level = "High" ↔ 7/10 ≤ c) ∧
    ((WheatReasoner.reason g dl c ts).risk_level = "Medium" ↔ 4/10 ≤ c ∧ c < 7/10) ∧
    ((WheatReasoner.reason g dl c ts).risk_level = "Low" ↔ c < 4/10) ∧
    (WheatReasoner.reason g dl (69/100) ts).risk_level = "Medium" ∧
    (WheatReasoner.reason g dl (7/10) ts).risk_level = "High" ∧
    (WheatReasoner.reason g dl (39/100) ts).risk_level = "Low" ∧
    (WheatReasoner.reason g dl (4/10) ts).risk_level = "Medium" := by
  have hr : ∀ x : ℚ, (WheatReasoner.reason g dl x ts).risk_level =
      (if x ≥ 7/10 then "High" else if x ≥ 4/10 then "Medium" else "Low") := fun x => rfl
  refine ⟨?_, ?_, ?_, ?_, ?_, ?_, ?_⟩
  · rw [hr]
    split_ifs with h1 h2
    · exact ⟨fun _ => h1, fun _ => rfl⟩
    · exact ⟨fun hh => absurd hh (by decide), fun hh => absurd hh h1⟩
    · exact ⟨fun hh => absurd hh (by decide), fun hh => absurd hh h1⟩
  · rw [hr]
    split_ifs with h1 h2
    · exact ⟨fun hh => absurd hh (by decide), fun hh => absurd h1 (not_le.mpr hh.2)⟩
    · exact ⟨fun _ => ⟨h2, not_le.mp h1⟩, fun _ => rfl⟩
    · exact ⟨fun hh => absurd hh (by decide), fun hh => absurd hh.1 h2⟩
  · rw [hr]
    split_ifs with h1 h2
    · exact ⟨fun hh => absurd hh (by decide),
        fun hh => absurd h1 (not_le.mpr (hh.trans (by norm_num)))⟩
    · exact ⟨fun hh => absurd hh (by decide), fun hh => absurd h2 (not_le.mpr hh)⟩
    · exact ⟨fun _ => not_le.mp h2, fun _ => rfl⟩
  · rw [hr, if_neg (by norm_num), if_pos (by norm_num)]
  · rw [hr, if_pos (by norm_num)]
  · rw [hr, if_neg (by norm_num), if_neg (by norm_num)]
  · rw [hr, if_neg (by norm_num), if_pos (by norm_num)]

/-- C4: `is_low_confidence` is true iff the confidence is below
`LOW_CONFIDENCE_THRESHOLD`, a constant (equal to 0.7) separate from the
risk-tier literals; and the low-confidence trace line — which carries
the measured confidence, the threshold and the human-verification
recommendation — is present in the explanation trace exactly when the
flag is set. -/
theorem C4_low_confidence_flag (g : KB) (dl : String) (ts : List String) (c : ℚ) :
    ((WheatReasoner.reason g dl c ts).is_low_confidence = true ↔
      c < LOW_CONFIDENCE_THRESHOLD) ∧
    LOW_CONFIDENCE_THRESHOLD = 7/10 ∧
    (TraceLine.lowConfidence c LOW_CONFIDENCE_THRESHOLD ∈
        (WheatReasoner.reason g dl c ts).explanation_trace ↔
      c < LOW_CONFIDENCE_THRESHOLD) := by
  have hl : (WheatReasoner.reason g dl c ts).is_low_confidence
      = decide (c < LOW_CONFIDENCE_THRESHOLD) := rfl
  have ht : (WheatReasoner.reason g dl c ts).explanation_trace
      = crossTrace (get_disease_facts g dl) ts dl ++
        (if c < LOW_CONFIDENCE_THRESHOLD then
          [TraceLine.lowConfidence c LOW_CONFIDENCE_THRESHOLD] else []) := rfl
  refine ⟨?_, rfl, ?_⟩
  · rw [hl]; exact decide_eq_true_iff
  · rw [ht]
    constructor
    · intro hmem
      rcases List.mem_append.mp hmem with hcm | hcm
      · exact absurd hcm (lowConf_not_crossTrace _ _ _ _ _)
      · by_contra hc
        rw [if_neg hc] at hcm
        cases hcm
    · intro hc
      apply List.mem_append.mpr
      right
      rw [if_pos hc]
      exact List.mem_singleton_self _

/-- C5: when text symptoms are supplied and facts resolved,
`symptom_evidence` is exactly the entity symptoms (in entity order)
that case-insensitively contain or are contained in some supplied text
symptom; with duplicate-free entity symptoms the evidence is
duplicate-free; exactly one cross-check trace line appears — positive
(carrying the input symptoms, the matched symptoms and the disease
label) when there is a match, an explicit negative line (carrying the
input symptoms and the disease label) otherwise — and no cross-check
line at all when no text symptoms were supplied. -/
theorem C5_symptom_cross_check (g : KB) (dl : String) (c : ℚ) (ts : List String)
    (f : DiseaseFacts) (hf : get_disease_facts g dl = some f) :
    (ts ≠ [] →
      (WheatReasoner.reason g dl c ts).symptom_evidence
        = f.symptoms.filter (symMatches ts) ∧
      (f.symptoms.Nodup → (WheatReasoner.reason g dl c ts).symptom_evidence.Nodup) ∧
      ((WheatReasoner.reason g dl c ts).explanation_trace.filter isCrossLine =
        if f.symptoms.filter (symMatches ts) = []
        then [TraceLine.symptomsNotMatched ts dl]
        else [TraceLine.symptomsMatched ts (f.symptoms.filter (symMatches ts)) dl])) ∧
    (ts = [] →
      (WheatReasoner.reason g dl c ts).symptom_evidence = [] ∧
      (WheatReasoner.reason g dl c ts).explanation_trace.filter isCrossLine = []) := by
  have hev : (WheatReasoner.reason g dl c ts).symptom_evidence
      = crossEvidence (get_disease_facts g dl) ts := rfl
  have htr : (WheatReasoner.reason g dl c ts).explanation_trace
      = crossTrace (get_disease_facts g dl) ts dl ++
        (if c < LOW_CONFIDENCE_THRESHOLD then
          [TraceLine.lowConfidence c LOW_CONFIDENCE_THRESHOLD] else []) := rfl
  have hlow : List.filter isCrossLine
      (if c < LOW_CONFIDENCE_THRESHOLD then
        [TraceLine.lowConfidence c LOW_CONFIDENCE_THRESHOLD] else []) = [] := by
    split <;> simp [isCrossLine]
  constructor
  · intro hts
    cases ts with
    | nil => exact absurd rfl hts
    | cons t ts' =>
      have hev2 : (WheatReasoner.reason g dl c (t :: ts')).symptom_evidence
          = f.symptoms.filter (symMatches (t :: ts')) := by
        rw [hev, hf]; rfl
      refine ⟨hev2, fun hnd => hev2 ▸ hnd.filter _, ?_⟩
      rw [htr, hf, List.filter_append, hlow, List.append_nil]
      by_cases hm : f.symptoms.filter (symMatches (t :: ts')) = []
      · simp [crossTrace, hm, isCrossLine]
      · simp [crossTrace, hm, isCrossLine]
  · intro hts
    subst hts
    constructor
    · rw [hev]
      cases get_disease_facts g dl <;> rfl
    · rw [htr, List.filter_append, hlow, List.append_nil]
      cases get_disease_facts g dl <;> rfl

/-- C6: for every disease label that resolves to no entity, any
confidence (including values outside the unit interval) and any
text-symptom list, `reason` yields the empty facts mapping (modelled as
`none`), empty symptom evidence and no cross-check trace line; as a
total Lean function over total string operations it cannot raise. -/
theorem C6_unresolved_label (g : KB) (dl : String) (c : ℚ) (ts : List String)
    (h : get_disease_uri_by_label g dl = none) :
    (WheatReasoner.reason g dl c ts).facts = none ∧
    (WheatReasoner.reason g dl c ts).symptom_evidence = [] ∧
    (WheatReasoner.reason g dl c ts).explanation_trace.filter isCrossLine = [] := by
  have hf : get_disease_facts g dl = none := by
    unfold get_disease_facts; rw [h]
  have hfa : (WheatReasoner.reason g dl c ts).facts
      = WheatKnowledgeBase.to_dict (get_disease_facts g dl) := rfl
  have hev : (WheatReasoner.reason g dl c ts).symptom_evidence
      = crossEvidence (get_disease_facts g dl) ts := rfl
  have htr : (WheatReasoner.reason g dl c ts).explanation_trace
      = crossTrace (get_disease_facts g dl) ts dl ++
        (if c < LOW_CONFIDENCE_THRESHOLD then
          [TraceLine.lowConfidence c LOW_CONFIDENCE_THRESHOLD] else []) := rfl
  refine ⟨?_, ?_, ?_⟩
  · rw [hfa, hf]; rfl
  · rw [hev, hf]; cases ts <;> rfl
  · rw [htr, hf, List.filter_append]
    have h1 : crossTrace none ts dl = [] := by cases ts <;> rfl
    rw [h1]
    have h2 : List.filter isCrossLine
        (if c < LOW_CONFIDENCE_THRESHOLD then
          [TraceLine.lowConfidence c LOW_CONFIDENCE_THRESHOLD] else []) = [] := by
      split <;> simp [isCrossLine]
    rw [h2]
    rfl

/-- C5 witness: over `kbMain`, resolving `"Leaf Rust"` yields the
concrete facts `lfFacts` with symptom `"orange pustules on leaves"`;
with text symptom `"orange pustules"` the evidence contains exactly
that entity symptom, while with `"blue spots"` the evidence is empty
and the trace carries the explicit negative cross-check line. -/
theorem C5_witness :
    (WheatReasoner.reason kbMain ("Leaf Rust") (1/2) [("orange pustules")]).symptom_evidence
      = [("orange pustules on leaves")] ∧
    (WheatReasoner.reason kbMain ("Leaf Rust") (1/2) [("blue spots")]).symptom_evidence
      = [] ∧
    (WheatReasoner.reason kbMain ("Leaf Rust") (1/2)
        [("blue spots")]).explanation_trace.filter isCrossLine
      = [TraceLine.symptomsNotMatched [("blue spots")] ("Leaf Rust")] := by
  have hpos := (C5_symptom_cross_check kbMain ("Leaf Rust") (1/2) [("orange pustules")]
    lfFacts (by decide)).1 (by decide)
  have hneg := (C5_symptom_cross_check kbMain ("Leaf Rust") (1/2) [("blue spots")]
    lfFacts (by decide)).1 (by decide)
  refine ⟨?_, ?_, ?_⟩
  · rw [hpos.1]; decide
  · rw [hneg.1]; decide
  · rw [hneg.2.2]; decide

/-- C6 witness: `"Nonexistent Disease"` resolves to nothing over
`kbMain`, and `reason` with an out-of-range confidence 1.5 and a
supplied text symptom produces the empty facts mapping, empty evidence
and no cross-check trace line. -/
theorem C6_witness :
    (WheatReasoner.reason kbMain ("Nonexistent Disease") (3/2) [("x")]).facts = none ∧
    (WheatReasoner.reason kbMain ("Nonexistent Disease") (3/2) [("x")]).symptom_evidence = [] ∧
    (WheatReasoner.reason kbMain ("Nonexistent Disease") (3/2)
        [("x")]).explanation_trace.filter isCrossLine = [] :=
  C6_unresolved_label kbMain ("Nonexistent Disease") (3/2) [("x")] (by decide)

/-- C7 counterexample: entities `EB` (label `"LEAF RUST"`) and `EA`
(label `"Leaf Rust"`) are both Disease-typed and share no identical
full label — the claim's well-formedness — yet resolving `"Leaf Rust"`,
an exact label of `EA`, returns `EB`, because exact matching compares
case-insensitively and `EB`'s label occurs first in iteration order. -/
theorem C7_counterexample :
    (⟨"EA", rdfsLabel, "Leaf Rust"⟩ : Triple) ∈ kb7 ∧
    isDisease kb7 ("EA") = true ∧
    ("LEAF RUST" : String) ≠ ("Leaf Rust") ∧
    get_disease_uri_by_label kb7 ("Leaf Rust") = some ("EB") ∧
    ("EB" : String) ≠ ("EA") := by
  refine ⟨by decide, by decide, by decide, by decide, by decide⟩

/-- C7 (amended): for a Disease-typed entity one of whose labels
normalises (lower-case, trimmed) to the query, the resolver returns
that entity via the exact-match step, provided well-formedness is
strengthened from "no identical full label" to "no other Disease-typed
entity carries a label with the same normalised form". -/
theorem C7_exact_label_resolution (g : KB) (e lab q : String)
    (hmem : (e, lab) ∈ labelTriples g)
    (hdis : isDisease g e = true)
    (hq : nrm q = nrm lab)
    (huniq : ∀ p ∈ labelTriples g, isDisease g p.1 = true → nrm p.2 = nrm lab → p.1 = e) :
    exactMatch g (nrm q) = some e ∧ get_disease_uri_by_label g q = some e := by
  have hex : exactMatch g (nrm q) = some e := by
    unfold exactMatch
    rw [hq]
    exact findSome?_first_exact g (nrm lab) e (labelTriples g)
      ⟨lab, hmem, rfl⟩ hdis huniq
  refine ⟨hex, ?_⟩
  simp only [get_disease_uri_by_label, hex]

/-- C7 witness: over `kbMain`, `"Leaf Rust"` is a label of the
Disease-typed entity `wheat#Leaf_Rust`, unique up to normalisation, and
resolving it returns that entity through the exact-match step. -/
theorem C7_witness :
    exactMatch kbMain (nrm ("Leaf Rust")) = some ("wheat#Leaf_Rust") ∧
    get_disease_uri_by_label kbMain ("Leaf Rust") = some ("wheat#Leaf_Rust") :=
  C7_exact_label_resolution kbMain ("wheat#Leaf_Rust") ("Leaf Rust") ("Leaf Rust")
    (by decide) (by decide) (by decide) (by decide)

/-- C8: for a fixed backing store, listing all disease labels is
idempotent (the pure function returns the same sequence on successive
calls), duplicate-free and sorted in the lexicographic code-point
order; and each Disease entity with labels contributes its preferred
label — a parenthesis-free one when the entity has one, otherwise the
first label found — which appears in the result. -/
theorem C8_list_all_labels (g : KB) :
    get_all_disease_labels g = get_all_disease_labels g ∧
    (get_all_disease_labels g).Nodup ∧
    List.Sorted (fun a b => strLeB a b = true) (get_all_disease_labels g) ∧
    (∀ s ∈ diseaseSubjects g, ∀ l, entityPreferredLabel g s = some l →
      l ∈ get_all_disease_labels g ∧ l ∈ labelsOf g s ∧
      ((∃ x ∈ labelsOf g s, x.data.contains '(' = false) → l.data.contains '(' = false) ∧
      ((∀ x ∈ labelsOf g s, x.data.contains '(' = true) → (labelsOf g s).head? = some l)) := by
  have hperm : List.Perm (get_all_disease_labels g)
      ((collectPreferred g (diseaseSubjects g) []).dedup) :=
    List.perm_insertionSort _ _
  refine ⟨rfl, ?_, ?_, ?_⟩
  · exact hperm.nodup_iff.mpr (List.nodup_dedup _)
  · exact List.sorted_insertionSort _ _
  · intro s hs l hl
    have hmem : l ∈ get_all_disease_labels g := by
      apply hperm.mem_iff.mpr
      apply List.mem_dedup.mpr
      exact collectPreferred_mem g (diseaseSubjects g) [] s l hs (List.not_mem_nil s) hl
    obtain ⟨h1, h2, h3⟩ := entityPreferredLabel_spec g s l hl
    exact ⟨hmem, h1, h2, h3⟩

/-- C8 witness: over `kbMain` the result is the two preferred labels in
sorted order; the Leaf Rust entity, which has both a parenthesis-free
and a parenthesised label, contributes the parenthesis-free one. -/
theorem C8_witness :
    ("Leaf Rust" : String) ∈ get_all_disease_labels kbMain ∧
    (get_all_disease_labels kbMain).Nodup := by
  have h := C8_list_all_labels kbMain
  exact ⟨(h.2.2.2 ("wheat#Leaf_Rust") (by decide) ("Leaf Rust") (by decide)).1, h.2.1⟩

/-- C9: flattening a `ReasoningResult` to the primitive mapping via the
reasoner's `to_dict` and reconstructing a `ReasoningResult` from that
mapping recovers every field — disease label, confidence, risk level,
low-confidence flag, facts, symptom evidence and explanation trace —
exactly; confidences are modelled as rationals, so no numeric value is
altered beyond the stored precision. -/
theorem C9_round_trip (r : ReasoningResult) :
    reasoningResultOfDict (WheatReasoner.to_dict r) = some r := by
  cases r with
  | mk dl c rl lo fa ev tr =>
    cases fa with
    | none => rfl
    | some fd =>
      cases fd with
      | mk u n p sy tr2 co pp ho no => cases p <;> rfl

/-- C10 counterexample: over a Disease entity with stored labels `"x"`
and `" "`, the empty query resolves (its normalised form equals that of
the whitespace-only label), yet the display name is `"x"` — the first
parenthesis-free label — not the case/trim-matching stored label `" "`
the claim requires, because the source guards the matching loop with
Python truthiness of the query. -/
theorem C10_counterexample :
    get_disease_uri_by_label kb10 ("") = some ("E") ∧
    nrm ("") = nrm (" ") ∧
    (get_disease_facts kb10 ("")).map DiseaseFacts.label = some ("x") ∧
    selectLabelClaimed ("") (labelsOf kb10 ("E")) ("E") = (" ") ∧
    ("x" : String) ≠ (" ") := by
  refine ⟨by decide, by decide, by decide, by decide, by decide⟩

/-- C10 (amended): for every query that resolves to an entity, the
display name in the facts snapshot follows the claimed policy with the
query-match preference restricted to non-empty queries: a non-empty
query equal (lower-cased, trimmed) to a stored label selects that
stored label in its original casing; otherwise the first stored label
without a parenthesis, else the first stored label; with no labels at
all the name is the identifier's fragment with underscores replaced by
spaces. -/
theorem C10_display_name (g : KB) (q e : String)
    (h : get_disease_uri_by_label g q = some e) :
    (get_disease_facts g q).map DiseaseFacts.label
      = some (selectLabelAmended q (labelsOf g e) e) := by
  rw [get_disease_facts_eq g q e h]
  rw [Option.map_some']
  exact congrArg some (selectLabel_eq_amended q (labelsOf g e) e)

/-- C10 witness: resolving `"leaf rust (brown rust)"` over `kbMain`
reaches the Leaf Rust entity and the display name is the stored label
`"Leaf Rust (Brown Rust)"` matching the query up to case. -/
theorem C10_witness :
    (get_disease_facts kbMain ("leaf rust (brown rust)")).map DiseaseFacts.label
      = some ("Leaf Rust (Brown Rust)") := by
  have h := C10_display_name kbMain ("leaf rust (brown rust)") ("wheat#Leaf_Rust")
    (by decide)
  rw [h]
  decide
